import Mathlib

/-!
Verification of the notification subscription layer of haystack-nclient.

The repository source under scrutiny is `src/client/notifications/`:
`NotificationService.ts` is present; the polling/dispatch engine
`NotificationsHandler.ts` that it imports is not in the snapshot, so the
engine (SubscriptionState, merge, PollingEngine, HandlerRegistry) is
modelled from the specification, as indicated on each such definition.
Timestamps (`HDateTime`) are modelled as natural numbers; haystack string
values (`HStr`, `HRef.value`) as strings.
-/

deriving instance DecidableEq for Except

namespace HaystackNotifications

/-- The kind of a notification, from the `kind` field of the `Notification`
interface in `NotificationService.ts`. -/
inductive NotificationKind
  | alarm
  | info
  | warning
  | success
  | error
  deriving DecidableEq

/-- The notification record, translated from the `Notification` interface in
`NotificationService.ts` (fields marked `?` there are `Option` here). -/
structure NotificationRecord where
  id : Option String
  targetApp : String
  topic : String
  kind : NotificationKind
  state : String
  message : Option String
  lastUpdateTime : Option Nat
  creation : Option Nat
  deriving DecidableEq

/-- The identity key of a record inside the known map (the record id; merge
rejects records whose id is absent before this default is ever used). -/
def recKey (r : NotificationRecord) : String :=
  r.id.getD ""

/-- Modelled from the spec: the change-detection rule of
`SubscriptionState.merge` (spec 4.1) for the missing `NotificationsHandler`
source.  A record is changed relative to the stored version if its
`lastUpdateTime` is strictly greater, or (fallback when the timestamps tie
or are absent) its `state` or `message` differs. -/
def isChangedPair (old new : NotificationRecord) : Bool :=
  match new.lastUpdateTime, old.lastUpdateTime with
  | some tNew, some tOld =>
    if tOld < tNew then true
    else if tNew = tOld then
      decide (new.state ≠ old.state) || decide (new.message ≠ old.message)
    else false
  | _, _ => decide (new.state ≠ old.state) || decide (new.message ≠ old.message)

/-- Modelled from the spec: `SubscriptionState` (spec 3) of the missing
`NotificationsHandler` source: the watermark plus the map from record id to
the last-dispatched version of the record, as an association list in which
the most recent binding for a key shadows older ones. -/
structure SubscriptionState where
  watermark : Nat
  known : List (String × NotificationRecord)
  deriving DecidableEq

/-- A SubscriptionState is created empty when a Subscription opens (spec 3). -/
def SubscriptionState.empty : SubscriptionState :=
  ⟨0, []⟩

/-- Look up the stored version of a record id in the known map. -/
def lookupKnown (known : List (String × NotificationRecord)) (i : String) :
    Option NotificationRecord :=
  List.lookup i known

/-- Whether an incoming record counts as changed relative to the known map:
new (id not known) or changed according to `isChangedPair` (spec 4.1). -/
def isChangedIn (known : List (String × NotificationRecord))
    (r : NotificationRecord) : Bool :=
  match lookupKnown known (recKey r) with
  | none => true
  | some old => isChangedPair old r

/-- Output ordering of merge (spec 4.1): ascending by `lastUpdateTime`
(absent timestamps sort as 0), ties broken by id. -/
def recLe (a b : NotificationRecord) : Prop :=
  a.lastUpdateTime.getD 0 < b.lastUpdateTime.getD 0 ∨
    (a.lastUpdateTime.getD 0 = b.lastUpdateTime.getD 0 ∧ recKey a ≤ recKey b)

instance recLe.decRel : DecidableRel recLe := fun a b =>
  inferInstanceAs (Decidable (a.lastUpdateTime.getD 0 < b.lastUpdateTime.getD 0 ∨
    (a.lastUpdateTime.getD 0 = b.lastUpdateTime.getD 0 ∧ recKey a ≤ recKey b)))

instance recLe.total : IsTotal NotificationRecord recLe := by
  constructor
  intro a b
  rcases Nat.lt_trichotomy (a.lastUpdateTime.getD 0) (b.lastUpdateTime.getD 0) with h | h | h
  · exact Or.inl (Or.inl h)
  · rcases le_total (recKey a) (recKey b) with hs | hs
    · exact Or.inl (Or.inr ⟨h, hs⟩)
    · exact Or.inr (Or.inr ⟨h.symm, hs⟩)
  · exact Or.inr (Or.inl h)

instance recLe.trans : IsTrans NotificationRecord recLe := by
  constructor
  intro a b c hab hbc
  rcases hab with h1 | ⟨h1, s1⟩ <;> rcases hbc with h2 | ⟨h2, s2⟩
  · exact Or.inl (h1.trans h2)
  · exact Or.inl (h2 ▸ h1)
  · exact Or.inl (h1 ▸ h2)
  · exact Or.inr ⟨h1.trans h2, s1.trans s2⟩

/-- Sort a changed subset in the output order of merge. -/
def sortRecs (l : List NotificationRecord) : List NotificationRecord :=
  List.insertionSort recLe l

/-- The maximum `lastUpdateTime` over a batch (absent timestamps count 0). -/
def batchMax (b : List NotificationRecord) : Nat :=
  b.foldl (fun m r => max m (r.lastUpdateTime.getD 0)) 0

/-- Errors of the merge step (spec 7). -/
inductive MergeError
  | invalidRecord
  deriving DecidableEq

/-- Modelled from the spec: `SubscriptionState.merge` (spec 4.1) of the
missing `NotificationsHandler` source.  Rejects any record without an id;
computes the changed subset against the pre-merge known map; updates the
known map to the incoming value of every changed record; advances the
watermark to the maximum `lastUpdateTime` of the full incoming batch, never
decreasing it; returns the changed subset sorted ascending by
`lastUpdateTime` with ties broken by id. -/
def merge (st : SubscriptionState) (incoming : List NotificationRecord) :
    Except MergeError (SubscriptionState × List NotificationRecord) :=
  if incoming.any (fun r => r.id.isNone) then
    .error .invalidRecord
  else
    let changed := incoming.filter (fun r => isChangedIn st.known r)
    let known := changed.foldl (fun k r => (recKey r, r) :: k) st.known
    .ok (⟨max st.watermark (batchMax incoming), known⟩, sortRecs changed)

/-- A sample record used to instantiate theorems with hypotheses. -/
def sampleRec : NotificationRecord :=
  ⟨some "a", "app", "topic", .info, "open", none, some 100, none⟩

/-- C2: for every sequence of merges, the watermark after merge N is at
least the watermark after merge N-1: a successful merge advances the
watermark to the maximum `lastUpdateTime` seen in the full incoming batch
(changed or not) joined with the old watermark, hence never decreases it. -/
theorem merge_watermark_monotone (st : SubscriptionState)
    (b : List NotificationRecord) (st' : SubscriptionState)
    (out : List NotificationRecord) (h : merge st b = .ok (st', out)) :
    st.watermark ≤ st'.watermark ∧
      st'.watermark = max st.watermark (batchMax b) := by
  unfold merge at h
  split at h
  · exact absurd h (by simp)
  · simp only [Except.ok.injEq, Prod.mk.injEq] at h
    obtain ⟨h1, _⟩ := h
    refine ⟨?_, ?_⟩
    · rw [← h1]
      exact le_max_left _ _
    · rw [← h1]

/-- Witness for C2 at a concrete merge. -/
theorem merge_watermark_monotone_witness :
    SubscriptionState.empty.watermark ≤
        (⟨100, [("a", sampleRec)]⟩ : SubscriptionState).watermark ∧
      (⟨100, [("a", sampleRec)]⟩ : SubscriptionState).watermark =
        max SubscriptionState.empty.watermark (batchMax [sampleRec]) :=
  merge_watermark_monotone SubscriptionState.empty [sampleRec]
    ⟨100, [("a", sampleRec)]⟩ [sampleRec] (by decide)

/-- C5: merging a batch containing a record without an id fails with
InvalidRecord, surfaced to the caller of merge; no new state is produced, so
a record lacking an id is never merged into SubscriptionState. -/
theorem merge_missing_id_invalid (st : SubscriptionState)
    (b : List NotificationRecord) (r : NotificationRecord)
    (hr : r ∈ b) (hid : r.id = none) :
    merge st b = .error .invalidRecord ∧
      ∀ st' out, merge st b ≠ .ok (st', out) := by
  have hany : b.any (fun x => x.id.isNone) = true :=
    List.any_eq_true.mpr ⟨r, hr, by simp [hid]⟩
  have hmain : merge st b = .error .invalidRecord := by
    unfold merge
    rw [if_pos hany]
  exact ⟨hmain, fun st' out hok => by rw [hmain] at hok; cases hok⟩

/-- A sample record with no id, for the C5 witness. -/
def draftRec : NotificationRecord :=
  ⟨none, "app", "topic", .info, "open", none, some 7, none⟩

/-- Witness for C5 at a concrete id-less record. -/
theorem merge_missing_id_invalid_witness :
    merge SubscriptionState.empty [draftRec] = .error .invalidRecord ∧
      ∀ st' out, merge SubscriptionState.empty [draftRec] ≠ .ok (st', out) :=
  merge_missing_id_invalid SubscriptionState.empty [draftRec] draftRec
    (by decide) (by decide)

/-- Sample records for the ordering scenario of spec 8: ids x, y, z with
timestamps t2, t1, t3 where t1 < t2 < t3 (here 1 < 2 < 3). -/
def xRec : NotificationRecord :=
  ⟨some "x", "app", "topic", .info, "open", none, some 2, none⟩

/-- Sample record y with the smallest timestamp t1. -/
def yRec : NotificationRecord :=
  ⟨some "y", "app", "topic", .info, "open", none, some 1, none⟩

/-- Sample record z with the largest timestamp t3. -/
def zRec : NotificationRecord :=
  ⟨some "z", "app", "topic", .info, "open", none, some 3, none⟩

/-- C4: the changed subset returned by merge is sorted ascending by
`lastUpdateTime` with ties broken by id; in particular for inputs with
timestamps [t2, t1, t3] and ids [x, y, z] where t1 < t2 < t3, the output
order is [y, x, z]. -/
theorem merge_output_sorted :
    (∀ st b st' out, merge st b = .ok (st', out) → out.Sorted recLe) ∧
      (merge SubscriptionState.empty [xRec, yRec, zRec]).map Prod.snd =
        .ok [yRec, xRec, zRec] := by
  constructor
  · intro st b st' out h
    unfold merge at h
    split at h
    · exact absurd h (by simp)
    · simp only [Except.ok.injEq, Prod.mk.injEq] at h
      obtain ⟨_, h2⟩ := h
      rw [← h2]
      exact List.sorted_insertionSort recLe _
  · decide

/-- Witness for C4 at the ordering scenario of spec 8. -/
theorem merge_output_sorted_witness :
    List.Sorted recLe [yRec, xRec, zRec] :=
  merge_output_sorted.1 SubscriptionState.empty [xRec, yRec, zRec]
    ⟨3, [("z", zRec), ("y", yRec), ("x", xRec)]⟩ [yRec, xRec, zRec] (by decide)

/-- The change detector never flags a record against itself. -/
theorem isChangedPair_self (r : NotificationRecord) :
    isChangedPair r r = false := by
  unfold isChangedPair
  cases r.lastUpdateTime with
  | none => simp
  | some t => simp

/-- Looking up a key that no updated record carries passes through the
fold of updates untouched. -/
theorem lookup_upd_foldl_notMem (rs : List NotificationRecord)
    (k0 : List (String × NotificationRecord)) (i : String)
    (h : ∀ r ∈ rs, recKey r ≠ i) :
    List.lookup i (rs.foldl (fun k r => (recKey r, r) :: k) k0) =
      List.lookup i k0 := by
  induction rs generalizing k0 with
  | nil => rfl
  | cons a t ih =>
    have hai : (i == recKey a) = false :=
      beq_eq_false_iff_ne.mpr fun e => h a (List.mem_cons_self a t) e.symm
    rw [List.foldl_cons, ih _ fun r hr => h r (List.mem_cons_of_mem a hr)]
    simp [List.lookup, hai]

/-- When the updated records carry pairwise distinct keys, looking up the
key of one of them after the fold of updates returns exactly that record. -/
theorem lookup_upd_foldl_mem (rs : List NotificationRecord)
    (k0 : List (String × NotificationRecord)) (r : NotificationRecord)
    (hnd : (rs.map recKey).Nodup) (hr : r ∈ rs) :
    List.lookup (recKey r) (rs.foldl (fun k x => (recKey x, x) :: k) k0) =
      some r := by
  induction rs generalizing k0 with
  | nil => cases hr
  | cons a t ih =>
    rw [List.map_cons, List.nodup_cons] at hnd
    obtain ⟨hna, hnt⟩ := hnd
    rw [List.foldl_cons]
    rcases List.mem_cons.mp hr with rfl | hrt
    · have hall : ∀ x ∈ t, recKey x ≠ recKey r := fun x hx e =>
        hna (e ▸ List.mem_map_of_mem recKey hx)
      rw [lookup_upd_foldl_notMem t _ _ hall]
      simp [List.lookup]
    · exact ih _ hnt hrt

/-- The change check only looks at the stored version under the record key:
when the lookup yields a stored version, the check is the pair check. -/
theorem isChangedIn_eq_of_lookup (kn : List (String × NotificationRecord))
    (r v : NotificationRecord) (h : lookupKnown kn (recKey r) = some v) :
    isChangedIn kn r = isChangedPair v r := by
  unfold isChangedIn
  rw [h]

/-- Two known maps that agree on the lookup of a record key give the same
change verdict for that record. -/
theorem isChangedIn_congr (k1 k2 : List (String × NotificationRecord))
    (r : NotificationRecord)
    (h : lookupKnown k1 (recKey r) = lookupKnown k2 (recKey r)) :
    isChangedIn k1 r = isChangedIn k2 r := by
  unfold isChangedIn
  rw [h]

/-- After a merge of a batch with pairwise distinct keys, no record of that
batch counts as changed any more. -/
theorem isChangedIn_after_merge (kn : List (String × NotificationRecord))
    (b : List NotificationRecord) (hnd : (b.map recKey).Nodup)
    (r : NotificationRecord) (hr : r ∈ b) :
    isChangedIn ((b.filter fun x => isChangedIn kn x).foldl
      (fun k x => (recKey x, x) :: k) kn) r = false := by
  by_cases hc : isChangedIn kn r = true
  · have hrch : r ∈ b.filter fun x => isChangedIn kn x :=
      List.mem_filter.mpr ⟨hr, hc⟩
    have hndch : ((b.filter fun x => isChangedIn kn x).map recKey).Nodup :=
      hnd.sublist ((List.filter_sublist b).map recKey)
    rw [isChangedIn_eq_of_lookup _ _ r
      (lookup_upd_foldl_mem _ _ _ hndch hrch)]
    exact isChangedPair_self r
  · have hcf : isChangedIn kn r = false := by
      simpa using hc
    have hall : ∀ x ∈ b.filter (fun y => isChangedIn kn y),
        recKey x ≠ recKey r := by
      intro x hx e
      obtain ⟨hxb, hxc⟩ := List.mem_filter.mp hx
      have hxr : x = r := List.inj_on_of_nodup_map hnd hxb hr e
      rw [hxr, hcf] at hxc
      cases hxc
    rw [isChangedIn_congr _ kn r (lookup_upd_foldl_notMem _ _ _ hall)]
    exact hcf

/-- Record with id a and timestamp 5, for the C3 counterexample. -/
def dupA5 : NotificationRecord :=
  ⟨some "a", "app", "topic", .info, "open", none, some 5, none⟩

/-- Record with the same id a and timestamp 3, for the C3 counterexample. -/
def dupA3 : NotificationRecord :=
  ⟨some "a", "app", "topic", .info, "open", none, some 3, none⟩

/-- Counterexample to C3 as stated: a batch that repeats one id with two
different timestamps is fully merged the first time (both occurrences are
new against the empty state), yet the second merge of the same batch still
reports a non-empty changed subset, because the known map retained the last
occurrence (timestamp 3) and the first occurrence (timestamp 5) counts as
newer than it. -/
theorem merge_twice_counterexample :
    merge SubscriptionState.empty [dupA5, dupA3] =
        .ok (⟨5, [("a", dupA3), ("a", dupA5)]⟩, [dupA3, dupA5]) ∧
      (merge (⟨5, [("a", dupA3), ("a", dupA5)]⟩ : SubscriptionState)
          [dupA5, dupA3]).map Prod.snd = .ok [dupA5] := by
  decide

/-- C3 (amended): for every batch of records with ids that are pairwise
distinct, merging the same batch twice in succession yields an empty
changed subset on the second merge, and the whole SubscriptionState — in
particular the watermark — is unchanged by the second merge. -/
theorem merge_twice_idempotent (st : SubscriptionState)
    (b : List NotificationRecord) (st1 : SubscriptionState)
    (out1 : List NotificationRecord) (hnd : (b.map recKey).Nodup)
    (h1 : merge st b = .ok (st1, out1)) :
    merge st1 b = .ok (st1, []) := by
  unfold merge at h1 ⊢
  by_cases hany : (b.any fun r => r.id.isNone) = true
  · rw [if_pos hany] at h1
    cases h1
  · rw [if_neg hany] at h1 ⊢
    simp only [Except.ok.injEq, Prod.mk.injEq] at h1
    obtain ⟨hst, _⟩ := h1
    have hempty : (b.filter fun r => isChangedIn st1.known r) = [] := by
      apply List.filter_eq_nil_iff.mpr
      intro r hr
      have hch := isChangedIn_after_merge st.known b hnd r hr
      rw [← hst]
      simpa using hch
    rw [hempty]
    have hwm : max st1.watermark (batchMax b) = st1.watermark := by
      rw [← hst]
      simp [max_assoc]
    rw [hwm]
    rfl

/-- Witness for the amended C3 at a concrete one-record batch. -/
theorem merge_twice_idempotent_witness :
    merge (⟨100, [("a", sampleRec)]⟩ : SubscriptionState) [sampleRec] =
      .ok (⟨100, [("a", sampleRec)]⟩, []) :=
  merge_twice_idempotent SubscriptionState.empty [sampleRec]
    ⟨100, [("a", sampleRec)]⟩ [sampleRec] (by decide) (by decide)

/-- Modelled from the spec: a registry operation a handler may perform on
the HandlerRegistry (spec 3, 4.3): add a callback or remove one by its
registration id. -/
inductive RegOp
  | addH (hid : Nat) (throws : Bool)
  | removeH (hid : Nat)
  deriving DecidableEq

/-- Modelled from the spec: a registered callback handler
(`NotificationEventHandler`, NotificationService.ts lines 40-42), abstracted
by its registration id, whether its invocation raises, and the registry
operations it performs during its own invocation. -/
structure Handler where
  hid : Nat
  throws : Bool
  ops : List RegOp
  deriving DecidableEq

/-- Errors reported by the engine on its side channel (spec 7). -/
inductive EngineError
  | pollCycleFailed
  | handlerError (hid : Nat)
  | mergeFailed
  deriving DecidableEq

/-- Apply one registry operation to the live handler list. -/
def applyOp (reg : List Handler) : RegOp → List Handler
  | .addH i t => reg ++ [⟨i, t, []⟩]
  | .removeH i => reg.filter fun h => h.hid ≠ i

/-- Apply the registry operations of one handler invocation in order. -/
def applyOps (reg : List Handler) (ops : List RegOp) : List Handler :=
  ops.foldl applyOp reg

/-- Modelled from the spec: the inner loop of one dispatch pass of
HandlerRegistry (spec 4.3) of the missing NotificationsHandler source.
Invokes the handlers of the snapshot in order, each with the full batch;
a throwing handler is recorded as a HandlerError and the remaining handlers
of the pass still run; registry operations performed by handlers are applied
to the live registry, never to the snapshot.  Returns the invocation log,
the reported handler errors, and the registry left for subsequent passes. -/
def runHandlers (batch : List NotificationRecord) :
    List Handler → List Handler →
      List (Nat × List NotificationRecord) × List EngineError × List Handler
  | [], reg => ([], [], reg)
  | h :: rest, reg =>
    let result := runHandlers batch rest (applyOps reg h.ops)
    ((h.hid, batch) :: result.1,
      (if h.throws then [EngineError.handlerError h.hid] else []) ++ result.2.1,
      result.2.2)

/-- Modelled from the spec: one dispatch pass (spec 4.3): a snapshot of the
handler list is taken at the start of the pass and every handler of the
snapshot is invoked with the full batch. -/
def dispatchPass (reg : List Handler) (batch : List NotificationRecord) :
    List (Nat × List NotificationRecord) × List EngineError × List Handler :=
  runHandlers batch reg reg

/-- Sample handler A that never raises. -/
def handlerA : Handler := ⟨0, false, []⟩

/-- Sample handler B that always raises. -/
def handlerB : Handler := ⟨1, true, []⟩

/-- Sample handler C that never raises. -/
def handlerC : Handler := ⟨2, false, []⟩

/-- C7: in every dispatch pass, every handler of the snapshot taken at the
start of the pass is invoked exactly once with the full batch, in
registration order, whatever the live registry and whatever any handler
throws or does to the registry (so additions and removals during the pass
only affect subsequent passes); concretely, with handlers [A, B, C] where B
always raises, A and C are still invoked with the batch and only B's error
is reported. -/
theorem dispatch_snapshot_isolation :
    (∀ snap reg batch, (runHandlers batch snap reg).1 =
      snap.map fun h => (h.hid, batch)) ∧
      (∀ reg batch, (dispatchPass reg batch).1 =
        reg.map fun h => (h.hid, batch)) ∧
      ∀ batch, dispatchPass [handlerA, handlerB, handlerC] batch =
        ([(0, batch), (1, batch), (2, batch)],
          [.handlerError 1], [handlerA, handlerB, handlerC]) := by
  have hlog : ∀ batch (snap reg : List Handler),
      (runHandlers batch snap reg).1 = snap.map fun h => (h.hid, batch) := by
    intro batch snap
    induction snap with
    | nil => intro reg; rfl
    | cons h t ih =>
      intro reg
      simp only [runHandlers, ih, List.map_cons]
  exact ⟨fun snap reg batch => hlog batch snap reg,
    fun reg batch => hlog batch reg reg,
    fun batch => rfl⟩

/-- The lifecycle states of the polling engine (spec 4.2).  A successful
open transitions through Open to Polling immediately, so the engine is
only ever observed in Idle, Polling or Closed between steps. -/
inductive Phase
  | idle
  | opened
  | polling
  | closed
  deriving DecidableEq

/-- Modelled from the spec: the state of a NotificationsHandler (spec 2,
4.4): the Subscription handle wrapping the polling engine phase, the
subscription state and the handler registry, seeded with the service url. -/
structure NotificationsHandler where
  serviceUrl : String
  callbacks : List Handler
  phase : Phase
  sub : SubscriptionState
  deriving DecidableEq

/-- A freshly constructed handler: Idle, with an empty SubscriptionState,
seeded with the service and the given callbacks (NotificationService.ts
lines 73-76). -/
def NotificationsHandler.init (serviceUrl : String)
    (callbacks : List Handler) : NotificationsHandler :=
  ⟨serviceUrl, callbacks, .idle, .empty⟩

/-- The outcome of one fetch against the NotificationSource collaborator. -/
inductive FetchOutcome
  | success (batch : List NotificationRecord)
  | failure
  deriving DecidableEq

/-- Errors surfaced synchronously from open (spec 7). -/
inductive OpenError
  | openFailed
  | invalidRecord
  deriving DecidableEq

/-- The observable result of an open attempt: the handler afterwards, the
dispatch log of the initial batch when one was dispatched, and the error
when the attempt failed. -/
structure OpenResult where
  handler : NotificationsHandler
  dispatched : Option (List (Nat × List NotificationRecord))
  err : Option OpenError
  deriving DecidableEq

/-- Modelled from the spec: NotificationsHandler.open (spec 4.2, 4.4) of the
missing NotificationsHandler source.  Performs one full fetch, merges it
into the SubscriptionState, dispatches the initial batch to the registry,
and transitions (through Open) to Polling.  If the initial fetch fails, it
fails with OpenFailed and the handler is left unchanged in Idle, so open may
be retried. -/
def openHandler (h : NotificationsHandler) (fetch : FetchOutcome) :
    OpenResult :=
  match fetch with
  | .failure => ⟨h, none, some .openFailed⟩
  | .success batch =>
    match merge h.sub batch with
    | .error _ => ⟨h, none, some .invalidRecord⟩
    | .ok (sub', changedOut) =>
      ⟨⟨h.serviceUrl, (dispatchPass h.callbacks changedOut).2.2, .polling, sub'⟩,
        some (dispatchPass h.callbacks changedOut).1, none⟩

/-- NotificationService.make (NotificationService.ts lines 70-80):
constructs a NotificationsHandler seeded with this service and the given
callbacks, awaits its open, and returns the handle. -/
def make (serviceUrl : String) (callbacks : List Handler)
    (fetch : FetchOutcome) : OpenResult :=
  openHandler (NotificationsHandler.init serviceUrl callbacks) fetch

/-- C1: make(callbacks) constructs a NotificationsHandler seeded with this
service and the given callbacks and awaits its open before returning the
handle; if the initial fetch fails, make fails with OpenFailed and the
subscription is left unchanged in Idle, so a retried open behaves exactly
like a fresh one. -/
theorem make_constructs_and_opens (serviceUrl : String)
    (callbacks : List Handler) (fetch : FetchOutcome) :
    make serviceUrl callbacks fetch =
        openHandler (NotificationsHandler.init serviceUrl callbacks) fetch ∧
      (NotificationsHandler.init serviceUrl callbacks).serviceUrl = serviceUrl ∧
      (NotificationsHandler.init serviceUrl callbacks).callbacks = callbacks ∧
      make serviceUrl callbacks .failure =
        ⟨NotificationsHandler.init serviceUrl callbacks, none,
          some .openFailed⟩ ∧
      (make serviceUrl callbacks .failure).handler.phase = .idle ∧
      openHandler (make serviceUrl callbacks .failure).handler fetch =
        make serviceUrl callbacks fetch :=
  ⟨rfl, rfl, rfl, rfl, rfl, rfl⟩

/-- The observable result of one polling cycle resolving: the handler
afterwards, the dispatch log when a non-empty changed subset was dispatched,
the errors reported on the side channel, and whether a next cycle was
scheduled. -/
structure CycleResult where
  handler : NotificationsHandler
  dispatched : Option (List (Nat × List NotificationRecord))
  errs : List EngineError
  scheduledNext : Bool
  deriving DecidableEq

/-- The timestamp from which the next poll requests its delta: the current
watermark of the SubscriptionState (spec 4.2, glossary). -/
def pollRequestTime (h : NotificationsHandler) : Nat :=
  h.sub.watermark

/-- Modelled from the spec: one polling cycle resolving (spec 4.2, 5, 7) in
the missing NotificationsHandler source.  A cycle resolving when the engine
is not Polling (in particular after close) is discarded without touching
state and without dispatch.  A failed fetch reports PollCycleFailed, leaves
the SubscriptionState untouched and still schedules the next cycle.  A
successful fetch is merged; a failed merge commits nothing; otherwise the
new state is committed and the changed subset is dispatched when it is
non-empty. -/
def pollCycle (h : NotificationsHandler) (outcome : FetchOutcome) :
    CycleResult :=
  match h.phase with
  | .polling =>
    match outcome with
    | .failure => ⟨h, none, [.pollCycleFailed], true⟩
    | .success batch =>
      match merge h.sub batch with
      | .error _ => ⟨h, none, [.mergeFailed], true⟩
      | .ok (sub', changedOut) =>
        if changedOut.isEmpty then
          ⟨{ h with sub := sub' }, none, [], true⟩
        else
          ⟨⟨h.serviceUrl, (dispatchPass h.callbacks changedOut).2.2,
              h.phase, sub'⟩,
            some (dispatchPass h.callbacks changedOut).1,
            (dispatchPass h.callbacks changedOut).2.1, true⟩
  | _ => ⟨h, none, [], false⟩

/-- C6: a polling cycle whose fetch fails leaves the SubscriptionState
(known and watermark) unchanged, reports PollCycleFailed, dispatches
nothing and still schedules the next cycle, so the next poll re-requests
from the same watermark; state is committed only by a cycle whose fetch and
merge both fully succeed, and a succeeding later cycle commits exactly the
merged state. -/
theorem cycle_failure_preserves_state (h : NotificationsHandler)
    (hp : h.phase = .polling) :
    pollCycle h .failure = ⟨h, none, [.pollCycleFailed], true⟩ ∧
      (pollCycle h .failure).handler.sub = h.sub ∧
      pollRequestTime (pollCycle h .failure).handler = pollRequestTime h ∧
      (pollCycle h .failure).scheduledNext = true ∧
      (∀ batch, merge h.sub batch = .error .invalidRecord →
        (pollCycle h (.success batch)).handler.sub = h.sub) ∧
      ∀ batch sub' out, merge h.sub batch = .ok (sub', out) →
        (pollCycle (pollCycle h .failure).handler
          (.success batch)).handler.sub = sub' := by
  have hfail : pollCycle h .failure = ⟨h, none, [.pollCycleFailed], true⟩ := by
    unfold pollCycle
    rw [hp]
  refine ⟨hfail, by rw [hfail], by rw [hfail], by rw [hfail], ?_, ?_⟩
  · intro batch hm
    simp only [pollCycle, hp, hm]
  · intro batch sub' out hm
    rw [hfail]
    simp only [pollCycle, hp, hm]
    by_cases he : out.isEmpty
    · rw [if_pos he]
    · rw [if_neg he]

/-- A concrete polling-phase handler for the C6 and C8 witnesses' batches. -/
def pollingH : NotificationsHandler :=
  ⟨"url", [handlerA], .polling, ⟨100, [("a", sampleRec)]⟩⟩

/-- Witness for C6 at a concrete polling handler and one-record batch. -/
theorem cycle_failure_preserves_state_witness :
    pollCycle pollingH .failure = ⟨pollingH, none, [.pollCycleFailed], true⟩ ∧
      (pollCycle pollingH .failure).handler.sub = pollingH.sub ∧
      pollRequestTime (pollCycle pollingH .failure).handler =
        pollRequestTime pollingH ∧
      (pollCycle pollingH .failure).scheduledNext = true ∧
      (∀ batch, merge pollingH.sub batch = .error .invalidRecord →
        (pollCycle pollingH (.success batch)).handler.sub = pollingH.sub) ∧
      ∀ batch sub' out, merge pollingH.sub batch = .ok (sub', out) →
        (pollCycle (pollCycle pollingH .failure).handler
          (.success batch)).handler.sub = sub' :=
  cycle_failure_preserves_state pollingH rfl

/-- Modelled from the spec: close (spec 4.2, 4.4): transitions the engine to
Closed and cancels any pending scheduled cycle; everything else, in
particular the SubscriptionState, is left as it is. -/
def closeHandler (h : NotificationsHandler) : NotificationsHandler :=
  { h with phase := .closed }

/-- C8: close is idempotent — closing an already-closed engine is a no-op,
not an error — and after close no merge or dispatch ever occurs: a fetch
still in flight when close was called is discarded when it resolves, no next
cycle is scheduled, and the SubscriptionState remains unchanged from its
pre-close value. -/
theorem close_idempotent_discards (h : NotificationsHandler) :
    closeHandler (closeHandler h) = closeHandler h ∧
      (h.phase = .closed → closeHandler h = h) ∧
      (∀ outcome, pollCycle (closeHandler h) outcome =
        ⟨closeHandler h, none, [], false⟩) ∧
      (closeHandler h).sub = h.sub := by
  refine ⟨rfl, ?_, fun outcome => rfl, rfl⟩
  intro hc
  cases h
  simp only [closeHandler]
  rw [← hc]

/-- Witness for C8 at a concrete already-closed handler. -/
theorem close_idempotent_discards_witness :
    closeHandler ⟨"url", [handlerA], .closed, ⟨100, [("a", sampleRec)]⟩⟩ =
      (⟨"url", [handlerA], .closed, ⟨100, [("a", sampleRec)]⟩⟩ :
        NotificationsHandler) :=
  (close_idempotent_discards
    ⟨"url", [handlerA], .closed, ⟨100, [("a", sampleRec)]⟩⟩).2.1 rfl

/-- An HTTP request as issued through fetchVal: url, method and body. -/
structure HttpRequest where
  url : String
  method : String
  body : Option String
  deriving DecidableEq

/-- NotificationService.readAllCurrentFiltered
(NotificationService.ts lines 125-138): an omitted or undefined filter
defaults to the empty string, and the request is a GET of
url/current?filter= followed by the filter. -/
def readAllCurrentFilteredRequest (url : String) (filter : Option String) :
    HttpRequest :=
  ⟨url ++ "/current?filter=" ++ filter.getD "", "GET", none⟩

/-- NotificationService.readByTopicFilter
(NotificationService.ts lines 147-160): an omitted or undefined filter
defaults to the empty string, and the request is a GET of
url/topics?filter= followed by the filter. -/
def readByTopicFilterRequest (url : String) (filter : Option String) :
    HttpRequest :=
  ⟨url ++ "/topics?filter=" ++ filter.getD "", "GET", none⟩

/-- C9: for readAllCurrentFiltered and readByTopicFilter, omitting the
filter issues exactly the request of the empty-string filter, and the
resulting URL ends in filter= with nothing after it. -/
theorem filtered_requests_default_empty (url : String) :
    readAllCurrentFilteredRequest url none =
        readAllCurrentFilteredRequest url (some "") ∧
      readByTopicFilterRequest url none =
        readByTopicFilterRequest url (some "") ∧
      (readAllCurrentFilteredRequest url none).url =
        url ++ "/current?filter=" ∧
      (readByTopicFilterRequest url none).url = url ++ "/topics?filter=" := by
  refine ⟨rfl, rfl, ?_, ?_⟩ <;>
    simp [readAllCurrentFilteredRequest, readByTopicFilterRequest]

/-- The value type of haystack refs, from the haystack-core collaborator. -/
structure HRef where
  value : String
  deriving DecidableEq

/-- The argument type of resolve and dismiss: a plain string or an HRef. -/
inductive RefArg
  | str (s : String)
  | ref (r : HRef)
  deriving DecidableEq

/-- HRef.make from the haystack-core collaborator: returns its argument
unchanged when it is already an HRef, otherwise constructs an HRef whose
value is the string without any leading at sign. -/
def HRef.make : RefArg → HRef
  | .str s => ⟨if s.startsWith "@" then s.drop 1 else s⟩
  | .ref r => r

/-- NotificationService.resolve (NotificationService.ts lines 210-222):
the request path is url/resolve/ followed by HRef.make(id).value. -/
def resolveUrl (url : String) (id : RefArg) : String :=
  url ++ "/resolve/" ++ (HRef.make id).value

/-- NotificationService.dismiss (NotificationService.ts lines 230-242):
the request path is url/dismiss/ followed by HRef.make(id).value. -/
def dismissUrl (url : String) (id : RefArg) : String :=
  url ++ "/dismiss/" ++ (HRef.make id).value

/-- C10: resolve and dismiss build their request paths from
HRef.make(id).value, so a plain string and the equivalent HRef produce the
same request URL, of the shape url/resolve/value and url/dismiss/value. -/
theorem resolve_dismiss_href_url (url s : String) :
    resolveUrl url (.str s) = resolveUrl url (.ref (HRef.make (.str s))) ∧
      dismissUrl url (.str s) = dismissUrl url (.ref (HRef.make (.str s))) ∧
      resolveUrl url (.str s) =
        url ++ "/resolve/" ++ (HRef.make (.str s)).value ∧
      dismissUrl url (.str s) =
        url ++ "/dismiss/" ++ (HRef.make (.str s)).value :=
  ⟨rfl, rfl, rfl, rfl⟩

end HaystackNotifications
